import Mathlib

set_option maxRecDepth 100000

namespace BedrockDecode

deriving instance DecidableEq for Except

/-- JavaScript strings are modelled as lists of characters. -/
abbrev JStr := List Char

/-- Models JavaScript `s.includes(p)`: `hasSub p s` is true when `p` occurs as a
contiguous substring of `s`. -/
def hasSub (p : JStr) : JStr → Bool
  | [] => p.isEmpty
  | c :: rest => p.isPrefixOf (c :: rest) || hasSub p rest

/-- Models JavaScript `s.indexOf(p)`: `none` stands for the sentinel `-1`. -/
def idxOfSub (p : JStr) : JStr → Option Nat
  | [] => if p.isEmpty then some 0 else none
  | c :: rest =>
    if p.isPrefixOf (c :: rest) then some 0
    else (idxOfSub p rest).map (· + 1)

/-- Worker for `jsSplit`: scans the input left to right, cutting at each
non-overlapping occurrence of the separator.  The fuel argument only makes the
recursion structural; `jsSplit` supplies enough fuel that the zero case is
never reached. -/
def jsSplitGo (sep : JStr) : Nat → JStr → JStr → List JStr
  | _, [], acc => [acc.reverse]
  | 0, s, acc => [acc.reverse ++ s]
  | fuel + 1, c :: rest, acc =>
    match sep with
    | [] => [acc.reverse ++ c :: rest]
    | s0 :: stail =>
      if (s0 :: stail).isPrefixOf (c :: rest) then
        acc.reverse :: jsSplitGo sep fuel (rest.drop stail.length) []
      else
        jsSplitGo sep fuel rest (c :: acc)

/-- Models JavaScript `s.split(sep)` for a non-empty literal separator (the
source only ever splits on `":message-type"` and on `'"'`). -/
def jsSplit (sep s : JStr) : List JStr := jsSplitGo sep s.length s []

/-- Worker for `jsReplaceAll` with the same fuel convention as `jsSplitGo`. -/
def jsReplAllGo (pat rep : JStr) : Nat → JStr → JStr
  | _, [] => []
  | 0, s => s
  | fuel + 1, c :: rest =>
    match pat with
    | [] => c :: rest
    | p0 :: ptail =>
      if (p0 :: ptail).isPrefixOf (c :: rest) then
        rep ++ jsReplAllGo pat rep fuel (rest.drop ptail.length)
      else
        c :: jsReplAllGo pat rep fuel rest

/-- Models JavaScript `s.replace(/pat/g, rep)` for a non-empty literal pattern:
occurrences are located left to right in the original string and the
replacement text is not rescanned. -/
def jsReplaceAll (pat rep s : JStr) : JStr := jsReplAllGo pat rep s.length s

/-- Value of a base64 alphabet character, `none` for characters outside the
alphabet. -/
def b64Val (c : Char) : Option Nat :=
  if 'A' ≤ c ∧ c ≤ 'Z' then some (c.toNat - 65)
  else if 'a' ≤ c ∧ c ≤ 'z' then some (c.toNat - 97 + 26)
  else if '0' ≤ c ∧ c ≤ '9' then some (c.toNat - 48 + 52)
  else if c = '+' then some 62
  else if c = '/' then some 63
  else none

/-- Models the character scanning of Node's forgiving base64 decoder
(`Buffer.from(s, "base64")`): characters outside the alphabet are skipped and
decoding stops at the first `=` padding character.  The decoder is total and
never throws. -/
def b64Sextets : JStr → List Nat
  | [] => []
  | c :: rest =>
    if c = '=' then []
    else
      match b64Val c with
      | some v => v :: b64Sextets rest
      | none => b64Sextets rest

/-- Packs 6-bit groups into 8-bit bytes, dropping a trailing lone sextet, as
Node's decoder does. -/
def b64Bytes : List Nat → List Nat
  | a :: b :: c :: d :: rest =>
    (a * 4 + b / 16) % 256 :: ((b % 16) * 16 + c / 4) % 256 ::
      ((c % 4) * 64 + d) % 256 :: b64Bytes rest
  | [a, b, c] => [(a * 4 + b / 16) % 256, ((b % 16) * 16 + c / 4) % 256]
  | [a, b] => [(a * 4 + b / 16) % 256]
  | _ => []

/-- The U+FFFD replacement character. -/
def replChar : Char := Char.ofNat 0xFFFD

/-- Models `buffer.toString("utf-8")`: decodes a byte sequence as UTF-8,
emitting U+FFFD for invalid bytes (the substitution pattern on truncated
multi-byte tails is approximated; every input the development evaluates is
ASCII). -/
def utf8Chars : List Nat → List Char
  | [] => []
  | b :: rest =>
    if b < 0x80 then Char.ofNat b :: utf8Chars rest
    else if 0xC2 ≤ b ∧ b ≤ 0xDF then
      match rest with
      | b2 :: rest2 =>
        if 0x80 ≤ b2 ∧ b2 ≤ 0xBF then
          Char.ofNat ((b - 0xC0) * 64 + (b2 - 0x80)) :: utf8Chars rest2
        else replChar :: utf8Chars (b2 :: rest2)
      | [] => [replChar]
    else if 0xE0 ≤ b ∧ b ≤ 0xEF then
      match rest with
      | b2 :: b3 :: rest3 =>
        if (0x80 ≤ b2 ∧ b2 ≤ 0xBF) ∧ (0x80 ≤ b3 ∧ b3 ≤ 0xBF) then
          let v := (b - 0xE0) * 4096 + (b2 - 0x80) * 64 + (b3 - 0x80)
          if v < 0x800 ∨ (0xD800 ≤ v ∧ v ≤ 0xDFFF) then replChar :: utf8Chars rest3
          else Char.ofNat v :: utf8Chars rest3
        else replChar :: utf8Chars (b2 :: b3 :: rest3)
      | _ => [replChar]
    else if 0xF0 ≤ b ∧ b ≤ 0xF4 then
      match rest with
      | b2 :: b3 :: b4 :: rest4 =>
        if (0x80 ≤ b2 ∧ b2 ≤ 0xBF) ∧ (0x80 ≤ b3 ∧ b3 ≤ 0xBF) ∧
            (0x80 ≤ b4 ∧ b4 ≤ 0xBF) then
          let v := (b - 0xF0) * 262144 + (b2 - 0x80) * 4096 +
            (b3 - 0x80) * 64 + (b4 - 0x80)
          if v < 0x10000 ∨ 0x10FFFF < v then replChar :: utf8Chars rest4
          else Char.ofNat v :: utf8Chars rest4
        else replChar :: utf8Chars (b2 :: b3 :: b4 :: rest4)
      | _ => [replChar]
    else replChar :: utf8Chars rest

/-- Composite modelling `Buffer.from(s, "base64").toString("utf-8")`. -/
def b64ToUtf8 (s : JStr) : JStr := utf8Chars (b64Bytes (b64Sextets s))

/-- The left brace character, written numerically. -/
def lbrace : Char := Char.ofNat 123

/-- The right brace character, written numerically. -/
def rbrace : Char := Char.ofNat 125

/-- JavaScript values producible by `JSON.parse` (a number is kept as its
source token, which determines its truthiness; an underflowing denormal
literal is not modelled). -/
inductive JSValue where
  | nullV : JSValue
  | boolV : Bool → JSValue
  | numV : JStr → JSValue
  | strV : JStr → JSValue
  | arrV : List JSValue → JSValue
  | objV : List (JStr × JSValue) → JSValue

/-- JSON whitespace. -/
def isWsJ (c : Char) : Bool := c = ' ' || c = '\t' || c = '\n' || c = '\r'

/-- Drops leading JSON whitespace. -/
def skipWs : JStr → JStr
  | [] => []
  | c :: rest => if isWsJ c then skipWs rest else c :: rest

/-- Value of a hexadecimal digit. -/
def hexVal (c : Char) : Option Nat :=
  if '0' ≤ c ∧ c ≤ '9' then some (c.toNat - 48)
  else if 'a' ≤ c ∧ c ≤ 'f' then some (c.toNat - 97 + 10)
  else if 'A' ≤ c ∧ c ≤ 'F' then some (c.toNat - 65 + 10)
  else none

/-- Parses the body of a JSON string after its opening quote, returning the
decoded characters and the remaining input. -/
def parseStrBody : JStr → Except JStr (JStr × JStr)
  | [] => .error ("SyntaxError: Unterminated string in JSON".data)
  | '"' :: rest => .ok ([], rest)
  | '\\' :: rest =>
    match rest with
    | [] => .error ("SyntaxError: Unterminated string in JSON".data)
    | e :: rest2 =>
      if e = '"' then (parseStrBody rest2).map (fun p => ('"' :: p.1, p.2))
      else if e = '\\' then (parseStrBody rest2).map (fun p => ('\\' :: p.1, p.2))
      else if e = '/' then (parseStrBody rest2).map (fun p => ('/' :: p.1, p.2))
      else if e = 'b' then (parseStrBody rest2).map (fun p => (Char.ofNat 8 :: p.1, p.2))
      else if e = 'f' then (parseStrBody rest2).map (fun p => (Char.ofNat 12 :: p.1, p.2))
      else if e = 'n' then (parseStrBody rest2).map (fun p => ('\n' :: p.1, p.2))
      else if e = 'r' then (parseStrBody rest2).map (fun p => (Char.ofNat 13 :: p.1, p.2))
      else if e = 't' then (parseStrBody rest2).map (fun p => ('\t' :: p.1, p.2))
      else if e = 'u' then
        match rest2 with
        | h1 :: h2 :: h3 :: h4 :: rest6 =>
          match hexVal h1, hexVal h2, hexVal h3, hexVal h4 with
          | some a, some b, some c, some d =>
            (parseStrBody rest6).map
              (fun p => (Char.ofNat (a * 4096 + b * 256 + c * 16 + d) :: p.1, p.2))
          | _, _, _, _ => .error ("SyntaxError: Bad Unicode escape in JSON".data)
        | _ => .error ("SyntaxError: Bad Unicode escape in JSON".data)
      else .error ("SyntaxError: Bad escaped character in JSON".data)
  | c :: rest =>
    if c.toNat < 32 then .error ("SyntaxError: Bad control character in JSON".data)
    else (parseStrBody rest).map (fun p => (c :: p.1, p.2))

/-- Takes the maximal run of decimal digits from the front of the input. -/
def takeDigits : JStr → (JStr × JStr)
  | [] => ([], [])
  | c :: rest =>
    if c.isDigit then
      let p := takeDigits rest
      (c :: p.1, p.2)
    else ([], c :: rest)

/-- Parses the optional exponent part of a JSON number token. -/
def parseExpPart (acc : JStr) (s : JStr) : Except JStr (JStr × JStr) :=
  match s with
  | c :: r =>
    if c = 'e' ∨ c = 'E' then
      let sgr : JStr × JStr :=
        match r with
        | '+' :: rr => (['+'], rr)
        | '-' :: rr => (['-'], rr)
        | _ => ([], r)
      let dr := takeDigits sgr.2
      if dr.1.isEmpty then .error ("SyntaxError: Exponent part is missing a number in JSON".data)
      else .ok (acc ++ c :: sgr.1 ++ dr.1, dr.2)
    else .ok (acc, c :: r)
  | [] => .ok (acc, [])

/-- Parses the optional fraction part of a JSON number token, then the
exponent. -/
def parseFracExp (acc : JStr) (s : JStr) : Except JStr (JStr × JStr) :=
  match s with
  | '.' :: r =>
    let dr := takeDigits r
    if dr.1.isEmpty then .error ("SyntaxError: Unterminated fractional number in JSON".data)
    else parseExpPart (acc ++ '.' :: dr.1) dr.2
  | _ => parseExpPart acc s

/-- Parses a JSON number token (strict grammar: optional minus, no leading
zeros), returning the token and the remaining input. -/
def parseNumTok (s : JStr) : Except JStr (JStr × JStr) :=
  let sgn : JStr × JStr :=
    match s with
    | '-' :: r => (['-'], r)
    | _ => ([], s)
  match sgn.2 with
  | '0' :: r => parseFracExp (sgn.1 ++ ['0']) r
  | c :: r =>
    if c.isDigit then
      let dr := takeDigits r
      parseFracExp (sgn.1 ++ c :: dr.1) dr.2
    else .error ("SyntaxError: No number after minus sign in JSON".data)
  | [] => .error ("SyntaxError: No number after minus sign in JSON".data)

mutual

/-- Parses one JSON value from the input (fuelled; `jsonParse` supplies enough
fuel that exhaustion is unreachable). -/
def parseVal : Nat → JStr → Except JStr (JSValue × JStr)
  | 0, _ => .error ("SyntaxError: input too deeply nested".data)
  | fuel + 1, s =>
    match skipWs s with
    | [] => .error ("SyntaxError: Unexpected end of JSON input".data)
    | c :: rest =>
      if c = '"' then (parseStrBody rest).map (fun p => (.strV p.1, p.2))
      else if c = lbrace then
        match skipWs rest with
        | c2 :: rest2 =>
          if c2 = rbrace then .ok (.objV [], rest2)
          else (parseMembers fuel (c2 :: rest2)).map (fun p => (.objV p.1, p.2))
        | [] => .error ("SyntaxError: Unexpected end of JSON input".data)
      else if c = '[' then
        match skipWs rest with
        | c2 :: rest2 =>
          if c2 = ']' then .ok (.arrV [], rest2)
          else (parseItems fuel (c2 :: rest2)).map (fun p => (.arrV p.1, p.2))
        | [] => .error ("SyntaxError: Unexpected end of JSON input".data)
      else if ['t', 'r', 'u', 'e'].isPrefixOf (c :: rest) then
        .ok (.boolV true, (c :: rest).drop 4)
      else if ['f', 'a', 'l', 's', 'e'].isPrefixOf (c :: rest) then
        .ok (.boolV false, (c :: rest).drop 5)
      else if ['n', 'u', 'l', 'l'].isPrefixOf (c :: rest) then
        .ok (.nullV, (c :: rest).drop 4)
      else if c = '-' ∨ c.isDigit then
        (parseNumTok (c :: rest)).map (fun p => (.numV p.1, p.2))
      else .error ("SyntaxError: Unexpected token in JSON".data)

/-- Parses the members of a JSON object after its opening brace (first member
pending). -/
def parseMembers : Nat → JStr → Except JStr (List (JStr × JSValue) × JStr)
  | 0, _ => .error ("SyntaxError: input too deeply nested".data)
  | fuel + 1, s =>
    match skipWs s with
    | '"' :: rest =>
      match parseStrBody rest with
      | .error e => .error e
      | .ok (key, rest2) =>
        match skipWs rest2 with
        | ':' :: rest3 =>
          match parseVal fuel rest3 with
          | .error e => .error e
          | .ok (v, rest4) =>
            match skipWs rest4 with
            | ',' :: rest5 =>
              (parseMembers fuel rest5).map (fun p => ((key, v) :: p.1, p.2))
            | c5 :: rest5 =>
              if c5 = rbrace then .ok ([(key, v)], rest5)
              else .error ("SyntaxError: Expected comma or brace after object member".data)
            | [] => .error ("SyntaxError: Unexpected end of JSON input".data)
        | _ => .error ("SyntaxError: Expected colon after property name in JSON".data)
    | _ => .error ("SyntaxError: Expected property name or brace in JSON".data)

/-- Parses the items of a JSON array after its opening bracket (first item
pending). -/
def parseItems : Nat → JStr → Except JStr (List JSValue × JStr)
  | 0, _ => .error ("SyntaxError: input too deeply nested".data)
  | fuel + 1, s =>
    match parseVal fuel s with
    | .error e => .error e
    | .ok (v, rest) =>
      match skipWs rest with
      | ',' :: rest2 => (parseItems fuel rest2).map (fun p => (v :: p.1, p.2))
      | ']' :: rest2 => .ok ([v], rest2)
      | _ => .error ("SyntaxError: Expected comma or bracket after array element".data)

end

/-- Models `JSON.parse`: parses one value and requires only whitespace to
remain.  A thrown `SyntaxError` is modelled as `.error`. -/
def jsonParse (s : JStr) : Except JStr JSValue :=
  match parseVal (2 * s.length + 2) s with
  | .error e => .error e
  | .ok (v, rest) =>
    if (skipWs rest).isEmpty then .ok v
    else .error ("SyntaxError: Unexpected non-whitespace character after JSON".data)

/-- Result of the JavaScript member access `v[k]`. -/
inductive MemberRes where
  | undefV : MemberRes
  | val : JSValue → MemberRes
  | typeErr : MemberRes

/-- Models the member access `parsed["text"]`: on an object the last binding
of the key wins (as `JSON.parse` keeps the later of duplicate keys), on an
array or a primitive the lookup yields `undefined` (the key `"text"` names no
built-in member), and on `null` it throws a TypeError. -/
def getMember : JSValue → JStr → MemberRes
  | .nullV, _ => .typeErr
  | .objV fields, k =>
    match fields.reverse.find? (fun f => f.1 == k) with
    | some f => .val f.2
    | none => .undefV
  | _, _ => .undefV

/-- True when a JSON number token denotes zero: its mantissa digits are all
`0` (the exponent cannot make such a token non-zero). -/
def isZeroTok (raw : JStr) : Bool :=
  ((raw.takeWhile (fun c => !(c == 'e') && !(c == 'E'))).filter Char.isDigit).all
    (fun c => c == '0')

/-- JavaScript truthiness of the values `JSON.parse` can produce. -/
def truthy : JSValue → Bool
  | .nullV => false
  | .boolV b => b
  | .numV raw => !(isZeroTok raw)
  | .strV s => !s.isEmpty
  | .arrV _ => true
  | .objV _ => true

/-- Lower-case hexadecimal digit. -/
def hexDigit (n : Nat) : Char :=
  if n < 10 then Char.ofNat (48 + n) else Char.ofNat (87 + n)

/-- Escaping of one character by `JSON.stringify`. -/
def jsonEscChar (c : Char) : JStr :=
  if c = '"' then ['\\', '"']
  else if c = '\\' then ['\\', '\\']
  else if c = Char.ofNat 8 then ['\\', 'b']
  else if c = '\t' then ['\\', 't']
  else if c = '\n' then ['\\', 'n']
  else if c = Char.ofNat 12 then ['\\', 'f']
  else if c = Char.ofNat 13 then ['\\', 'r']
  else if c.toNat < 32 then
    ['\\', 'u', '0', '0', hexDigit (c.toNat / 16), hexDigit (c.toNat % 16)]
  else [c]

/-- `JSON.stringify` of a string. -/
def stringifyStr (s : JStr) : JStr :=
  '"' :: (s.map jsonEscChar).flatten ++ ['"']

/-- `JSON.stringify` of an array of strings (used for the decoder's
`Split Response` trace line). -/
def stringifyArr (xs : List JStr) : JStr :=
  '[' :: (List.intercalate [','] (xs.map stringifyStr)) ++ [']']

/-- The separator `":message-type"` the decoder splits the raw body on. -/
def msgTypeTok : JStr := ":message-type".data

/-- The substring `"bytes"` marking a payload-bearing segment. -/
def bytesTok : JStr := "bytes".data

/-- The double-quote character as a one-character pattern. -/
def quoteTok : JStr := ['"']

/-- The marker `finalResponse":` searched for by the fallback path. -/
def finalRespTok : JStr := "finalResponse\":".data

/-- The terminator `"}` that closes the fallback extraction. -/
def closeBraceTok : JStr := ['"', rbrace]

/-- The noise pattern `{input:{value:` removed from the answer. -/
def noiseTok1 : JStr := "\x7binput:\x7bvalue:".data

/-- The noise pattern `,source:null}}` removed from the answer. -/
def noiseTok2 : JStr := ",source:null\x7d\x7d".data

/-- The property name `text` read from the parsed fallback fragment. -/
def textTok : JStr := "text".data

/-- Message of the TypeError thrown when `.replace` is called on the
non-string value left in `finalResponse`. -/
def replTypeErrMsg : JStr :=
  "TypeError: finalResponse.replace is not a function".data

/-- Trace lines contributed by the decoder's loop body for segment `seg` at
index `idx`: a payload-bearing segment (one containing `"bytes"`) with more
than three quote-split parts contributes its base64-decoded fourth part, one
with at most three parts contributes nothing, and a non-payload segment
contributes the `no bytes` line followed by the segment itself.  The source
wraps the base64 decode in try/catch, but Node's decoder is total, so the
catch arm is unreachable and the decoded text is always pushed. -/
def segTrace (idx : Nat) (seg : JStr) : List JStr :=
  if hasSub bytesTok seg then
    let parts := jsSplit quoteTok seg
    if 3 < parts.length then [b64ToUtf8 (parts.getD 3 [])] else []
  else
    ["no bytes at index ".data ++ (Nat.repr idx).data, seg]

/-- The decoder's indexed for-loop over the split segments, accumulating trace
lines by repeated push. -/
def loopGo : List JStr → Nat → List JStr → List JStr
  | [], _, acc => acc
  | seg :: rest, idx, acc => loopGo rest (idx + 1) (acc ++ segTrace idx seg)

/-- The decoder's `splitResponse[splitResponse.length - 1]`. -/
def lastSeg (body : JStr) : JStr :=
  let sr := jsSplit msgTypeTok body
  sr.getD (sr.length - 1) []

/-- Models the decoder's try-block `parsed = JSON.parse(part2); finalResponse
= parsed["text"] || ""`: a caught exception is returned as `.error` (the catch
arm only logs and leaves `finalResponse` unchanged), otherwise the new value
of `finalResponse` is returned.  The `|| ""` turns a falsy member into the
empty string; a truthy member is kept whatever its dynamic type. -/
def tryParseMember (part2 : JStr) : Except JStr JSValue :=
  match jsonParse part2 with
  | .error e => .error e
  | .ok parsed =>
    match getMember parsed textTok with
    | .typeErr => .error ("TypeError: Cannot read properties of null".data)
    | .undefV => .ok (.strV [])
    | .val v => .ok (if truthy v then v else .strV [])

/-- The decoder's three replacement passes over the answer: strip every
double quote, then delete every occurrence of the two noise patterns. -/
def normalizeAns (s : JStr) : JStr :=
  jsReplaceAll noiseTok2 [] (jsReplaceAll noiseTok1 [] (jsReplaceAll quoteTok [] s))

/-- Applies the replacement chain to the dynamic value held in
`finalResponse`: on a string it normalizes, on any other value the first
`.replace` call throws a TypeError, modelled as `.error`. -/
def applyReplaces : JSValue → Except JStr JStr
  | .strV s => .ok (normalizeAns s)
  | _ => .error replTypeErrMsg

/-- The three fixed trace lines the decoder pushes before its loop. -/
def headTrace (body : JStr) : List JStr :=
  ["Decoded response: ".data ++ body,
   "Split Response: ".data ++ stringifyArr (jsSplit msgTypeTok body),
   "length of split: ".data ++ (Nat.repr (jsSplit msgTypeTok body).length).data]

/-- The answer computation of the decoder as a function of the raw body and
its last segment only (stated separately to express that the loop over the
segments contributes nothing to the answer). -/
def tailAnswer (responseText lastResponse : JStr) : Except JStr JStr :=
  if hasSub bytesTok lastResponse then
    let parts := jsSplit quoteTok lastResponse
    if 3 < parts.length then applyReplaces (.strV (b64ToUtf8 (parts.getD 3 [])))
    else applyReplaces (.strV [])
  else
    match idxOfSub finalRespTok responseText with
    | none => applyReplaces (.strV [])
    | some startIdx =>
      let part1 := responseText.drop (startIdx + finalRespTok.length)
      match idxOfSub closeBraceTok part1 with
      | none => applyReplaces (.strV [])
      | some endIdx =>
        match tryParseMember (part1.take (endIdx + 2)) with
        | .ok fr => applyReplaces fr
        | .error _ => applyReplaces (.strV [])

/-- Shallow embedding of `decodeResponse` (index.ts, second revision, lines
415-497), taking the already-awaited response text.  The trace is kept as the
list of pushed lines; `.error` models an exception escaping the function.
The loop pushes trace lines only; the answer is then computed from the last
segment if it is payload-bearing, and otherwise from the `finalResponse":`
marker fallback, before the three replacement passes. -/
def decodeResp (responseText : JStr) : Except JStr (List JStr × JStr) :=
  let splitResponse := jsSplit msgTypeTok responseText
  let cap :=
    ["Decoded response: ".data ++ responseText,
     "Split Response: ".data ++ stringifyArr splitResponse,
     "length of split: ".data ++ (Nat.repr splitResponse.length).data]
  let cap := loopGo splitResponse 0 cap
  let lastResponse := splitResponse.getD (splitResponse.length - 1) []
  let cap := cap ++ ["Lst Response: ".data ++ lastResponse]
  if hasSub bytesTok lastResponse then
    let cap := cap ++ ["Bytes in last response".data]
    let parts := jsSplit quoteTok lastResponse
    let fr : JSValue :=
      if 3 < parts.length then .strV (b64ToUtf8 (parts.getD 3 [])) else .strV []
    (applyReplaces fr).map (fun a => (cap, a))
  else
    let cap := cap ++ ["no bytes in last response".data]
    match idxOfSub finalRespTok responseText with
    | none => (applyReplaces (.strV [])).map (fun a => (cap, a))
    | some startIdx =>
      let part1 := responseText.drop (startIdx + finalRespTok.length)
      match idxOfSub closeBraceTok part1 with
      | none => (applyReplaces (.strV [])).map (fun a => (cap, a))
      | some endIdx =>
        let part2 := part1.take (endIdx + 2)
        match tryParseMember part2 with
        | .ok fr => (applyReplaces fr).map (fun a => (cap, a))
        | .error e =>
          (applyReplaces (.strV [])).map
            (fun a => (cap ++ ["Error parsing JSON: ".data ++ e], a))

/-- `decodeResponse` as the source returns it: the captured trace joined with
newlines, paired with the final answer. -/
def decodeResponse (responseText : JStr) : Except JStr (JStr × JStr) :=
  (decodeResp responseText).map
    (fun p => (List.intercalate ['\n'] p.1, p.2))

/-- The raw `endSession` field of an inbound Lambda event: a boolean, a
string, or absent. -/
inductive EndSessionField where
  | boolE : Bool → EndSessionField
  | strE : JStr → EndSessionField
  | absent : EndSessionField
deriving DecidableEq

/-- An inbound Lambda event. -/
structure LambdaEvent where
  sessionId : JStr
  question : JStr
  endSession : EndSessionField

/-- The handler's coercion of the raw `endSession` field (lines 574-581):
true exactly for the boolean `true` and the string `"true"`, mirroring
`rawEndSession === true || rawEndSession === "true"`. -/
def endSessionOf (raw : EndSessionField) : Bool :=
  if raw = .boolE true ∨ raw = .strE ("true".data) then true else false

/-- The outbound request body `askQuestion` constructs. -/
structure AgentRequest where
  inputText : JStr
  enableTrace : Bool
  endSession : Bool
deriving DecidableEq

/-- The request `lambdaHandler` causes `askQuestion` to issue for an event:
the question as `inputText`, tracing enabled, and the coerced `endSession`
flag. -/
def lambdaRequestOf (ev : LambdaEvent) : AgentRequest :=
  { inputText := ev.question
    enableTrace := true
    endSession := endSessionOf ev.endSession }

/-- The envelope a Lambda handler returns. -/
structure LambdaResponse where
  statusCode : Nat
  body : JStr
deriving DecidableEq

/-- `JSON.stringify({ response, trace_data })` of the success envelope body. -/
def stringifyOkBody (responseOutput traceData : JStr) : JStr :=
  lbrace :: stringifyStr ("response".data) ++ [':'] ++
    stringifyStr responseOutput ++ [','] ++
    stringifyStr ("trace_data".data) ++ [':'] ++
    stringifyStr traceData ++ [rbrace]

/-- `JSON.stringify({ error })` of the failure envelope body. -/
def stringifyErrBody (msg : JStr) : JStr :=
  lbrace :: stringifyStr ("error".data) ++ [':'] ++ stringifyStr msg ++ [rbrace]

/-- `askQuestion` issues the signed request (an external collaborator,
abstracted as its outcome: the raw response text or a transport error) and
passes the response to the decoder; exceptions propagate. -/
def askQuestion (transport : Except JStr JStr) : Except JStr (JStr × JStr) :=
  match transport with
  | .error e => .error e
  | .ok raw => decodeResponse raw

/-- Shallow embedding of `lambdaHandler` (lines 569-609), parameterized by the
transport outcome: the try/catch wraps the `(trace, answer)` pair into a 200
envelope on success and the error message into a 500 envelope on any
exception from the issuer or the decoder. -/
def lambdaHandler (_ev : LambdaEvent) (transport : Except JStr JStr) : LambdaResponse :=
  match askQuestion transport with
  | .ok p => { statusCode := 200, body := stringifyOkBody p.1 p.2 }
  | .error e => { statusCode := 500, body := stringifyErrBody e }

/-- Example body with a payload-bearing first segment (base64 of `Hello` in
its fourth quote-part) and a non-payload final segment. -/
def exBodyLastPayload : JStr := "bytes\"a\"b\"SGVsbG8=\"x:message-typeend".data

/-- Example body whose final segment is payload-bearing (base64 of `Hello`)
and whose earlier segment is also payload-bearing (base64 of `Hi`). -/
def exBodyC1Witness : JStr :=
  "bytes\"q\"w\"SGk=\"y:message-typebytes\"q\"w\"SGVsbG8=\"y".data

/-- Example body whose `finalResponse":` fragment parses to an object whose
`text` member is the truthy non-string `true`. -/
def exBodyTypeConfusion : JStr :=
  "finalResponse\":\x7b\"text\":true,\"a\":\"b\"\x7d".data

/-- Example body with no payload-bearing segment and a well-formed
`finalResponse":` fragment whose `text` member is `Hi there`. -/
def exBodyMarker : JStr := "finalResponse\":\x7b\"text\":\"Hi there\"\x7d".data

/-- Example body with a payload-bearing segment carrying malformed base64
(`!!!`), a payload-bearing segment carrying base64 of `Hi`, and a non-payload
final segment. -/
def exBodyMalformedB64 : JStr :=
  "bytes\"a\"b\"!!!\"x:message-typebytes\"a\"b\"SGk=\"x:message-typeend".data

/-- Example body splitting into five payload-bearing segments that all have
fewer than four quote-parts. -/
def exBodyFiveSegs : JStr :=
  "bytes:message-typebytes:message-typebytes:message-typebytes:message-typebytes".data

/-- Example body splitting into two non-payload segments. -/
def exBodyTwoSegs : JStr := "a:message-typeb".data

/-- The spec's example body, taken literally: the base64 of `Hello` is the
segment's second quoted field. -/
def exBodyC7Literal : JStr := "x:message-type...bytes...\"SGVsbG8=\"...".data

/-- The spec's example body adjusted so the base64 of `Hello` is the fourth
quote-split part of the final segment. -/
def exBodyC7Fourth : JStr := "x:message-type...bytes...\"k\"\"SGVsbG8=\"...".data

/-- Input on which one normalization pass splices together a new occurrence
of the first noise pattern. -/
def exNormSplice : JStr := "\x7binp\x7binput:\x7bvalue:ut:\x7bvalue:".data

theorem exmap_snd (e : Except JStr JStr) (cap : List JStr) :
    (e.map (fun a => (cap, a))).map (fun p : List JStr × JStr => p.2) = e := by
  cases e <;> rfl

theorem loopGo_eq (segs : List JStr) (idx : Nat) (acc : List JStr) :
    loopGo segs idx acc =
      acc ++ (List.map (fun p : Nat × JStr => segTrace p.1 p.2)
        (List.enumFrom idx segs)).flatten := by
  induction segs generalizing idx acc with
  | nil => simp [loopGo]
  | cons s rest ih =>
    simp [loopGo, ih, List.enumFrom]

theorem jsReplAllGo_not_occurs (pat rep : JStr) (fuel : Nat) (s : JStr)
    (h : hasSub pat s = false) : jsReplAllGo pat rep fuel s = s := by
  induction fuel generalizing s with
  | zero => cases s <;> rfl
  | succ fuel ih =>
    cases s with
    | nil => rfl
    | cons c rest =>
      cases pat with
      | nil => rfl
      | cons p0 ptail =>
        simp only [hasSub, Bool.or_eq_false_iff] at h
        simp [jsReplAllGo, h.1, ih rest h.2]

theorem jsReplaceAll_not_occurs (pat rep s : JStr)
    (h : hasSub pat s = false) : jsReplaceAll pat rep s = s :=
  jsReplAllGo_not_occurs pat rep s.length s h

theorem mem_jsReplAllGo (pat rep : JStr) (fuel : Nat) (s : JStr) (c : Char)
    (h : c ∈ jsReplAllGo pat rep fuel s) : c ∈ rep ∨ c ∈ s := by
  induction fuel generalizing s with
  | zero =>
    cases s with
    | nil => simp [jsReplAllGo] at h
    | cons a rest => exact Or.inr h
  | succ fuel ih =>
    cases s with
    | nil => simp [jsReplAllGo] at h
    | cons a rest =>
      cases pat with
      | nil => exact Or.inr h
      | cons p0 ptail =>
        by_cases hp : (p0 :: ptail).isPrefixOf (a :: rest) = true
        · simp only [jsReplAllGo, hp, if_true, List.mem_append] at h
          rcases h with hmem | hmem
          · exact Or.inl hmem
          · rcases ih (rest.drop ptail.length) hmem with h2 | h2
            · exact Or.inl h2
            · exact Or.inr (List.mem_cons_of_mem a (List.mem_of_mem_drop h2))
        · simp [jsReplAllGo, hp] at h
          rcases h with hmem | hmem
          · exact Or.inr (hmem ▸ List.mem_cons_self a rest)
          · rcases ih rest hmem with h2 | h2
            · exact Or.inl h2
            · exact Or.inr (List.mem_cons_of_mem a h2)

theorem quote_not_mem_strip (fuel : Nat) (s : JStr) (hf : s.length ≤ fuel) :
    '"' ∉ jsReplAllGo quoteTok [] fuel s := by
  induction fuel generalizing s with
  | zero =>
    cases s with
    | nil => simp [jsReplAllGo]
    | cons a rest => simp at hf
  | succ fuel ih =>
    cases s with
    | nil => simp [jsReplAllGo]
    | cons a rest =>
      have hlen : rest.length ≤ fuel := by
        have := hf
        simp only [List.length_cons] at this
        omega
      by_cases hp : (quoteTok : JStr).isPrefixOf (a :: rest) = true
      · simp only [quoteTok] at hp
        simp [jsReplAllGo, quoteTok, hp]
        exact ih rest hlen
      · have ha : a ≠ '"' := by
          intro hEq
          apply hp
          simp [quoteTok, List.isPrefixOf, hEq]
        simp only [quoteTok] at hp
        simp [jsReplAllGo, quoteTok, hp]
        exact ⟨fun hEq => ha hEq.symm, ih rest hlen⟩

theorem quote_not_mem_normalizeAns (s : JStr) : '"' ∉ normalizeAns s := by
  intro hmem
  have h1 := mem_jsReplAllGo noiseTok2 []
    (jsReplaceAll noiseTok1 [] (jsReplaceAll quoteTok [] s)).length
    (jsReplaceAll noiseTok1 [] (jsReplaceAll quoteTok [] s)) '"' hmem
  simp only [List.not_mem_nil, false_or] at h1
  have h2 := mem_jsReplAllGo noiseTok1 []
    (jsReplaceAll quoteTok [] s).length
    (jsReplaceAll quoteTok [] s) '"' h1
  simp only [List.not_mem_nil, false_or] at h2
  exact quote_not_mem_strip s.length s (Nat.le_refl _) h2

theorem hasSub_singleton_false (c : Char) (l : JStr) (h : c ∉ l) :
    hasSub [c] l = false := by
  induction l with
  | nil => rfl
  | cons a rest ih =>
    simp only [List.mem_cons, not_or] at h
    simp only [hasSub, Bool.or_eq_false_iff]
    constructor
    · simp [List.isPrefixOf]
      intro hEq
      exact absurd hEq h.1
    · exact ih h.2

theorem getD_last_mem (l : List JStr) (d : JStr) (h : l ≠ []) :
    l.getD (l.length - 1) d ∈ l := by
  induction l with
  | nil => exact absurd rfl h
  | cons a rest ih =>
    cases rest with
    | nil => simp
    | cons b t =>
      have : (a :: b :: t).getD ((a :: b :: t).length - 1) d =
          (b :: t).getD ((b :: t).length - 1) d := by
        simp [List.getD]
      rw [this]
      exact List.mem_cons_of_mem a (ih (by simp))

theorem jsSplitGo_ne_nil (sep : JStr) (fuel : Nat) (s acc : JStr) :
    jsSplitGo sep fuel s acc ≠ [] := by
  induction fuel generalizing s acc with
  | zero => cases s <;> simp [jsSplitGo]
  | succ fuel ih =>
    cases s with
    | nil => simp [jsSplitGo]
    | cons c rest =>
      cases sep with
      | nil => simp [jsSplitGo]
      | cons s0 stail =>
        by_cases hp : (s0 :: stail).isPrefixOf (c :: rest) = true
        · simp [jsSplitGo, hp]
        · simp only [jsSplitGo, hp, if_false]
          exact ih rest (c :: acc)

theorem jsSplit_ne_nil (sep s : JStr) : jsSplit sep s ≠ [] :=
  jsSplitGo_ne_nil sep s.length s []

theorem exmap_ok_inv (e : Except JStr JStr) (cap t : List JStr) (a : JStr)
    (h : e.map (fun x => (cap, x)) = .ok (t, a)) : t = cap := by
  cases e with
  | ok v =>
    simp only [Except.map, Except.ok.injEq, Prod.mk.injEq] at h
    exact h.1.symm
  | error e => simp [Except.map] at h

theorem decodeResp_answer_eq_tail (body : JStr) :
    (decodeResp body).map (fun p : List JStr × JStr => p.2) =
      tailAnswer body (lastSeg body) := by
  unfold decodeResp tailAnswer lastSeg
  simp only []
  by_cases h : hasSub bytesTok
      ((jsSplit msgTypeTok body).getD ((jsSplit msgTypeTok body).length - 1) []) = true
  · simp only [h, if_true]
    by_cases h2 : 3 < (jsSplit quoteTok
        ((jsSplit msgTypeTok body).getD ((jsSplit msgTypeTok body).length - 1) [])).length
    · simp only [if_pos h2, exmap_snd]
    · simp only [if_neg h2, exmap_snd]
  · simp only [Bool.not_eq_true] at h
    simp only [h, Bool.false_eq_true, if_false]
    cases hidx : idxOfSub finalRespTok body with
    | none => simp only [hidx, exmap_snd]
    | some startIdx =>
      simp only [hidx]
      cases hend : idxOfSub closeBraceTok (body.drop (startIdx + finalRespTok.length)) with
      | none => simp only [hend, exmap_snd]
      | some endIdx =>
        simp only [hend]
        cases htry : tryParseMember
            ((body.drop (startIdx + finalRespTok.length)).take (endIdx + 2)) with
        | ok fr => simp only [htry, exmap_snd]
        | error e => simp only [htry, exmap_snd]

theorem decodeResp_trace_shape (body : JStr) (t : List JStr) (a : JStr)
    (h : decodeResp body = .ok (t, a)) :
    ∃ tl, t = headTrace body ++
      (List.map (fun p : Nat × JStr => segTrace p.1 p.2)
        (List.enumFrom 0 (jsSplit msgTypeTok body))).flatten ++ tl := by
  unfold decodeResp at h
  simp only [loopGo_eq] at h
  simp only [headTrace]
  by_cases hb : hasSub bytesTok
      ((jsSplit msgTypeTok body).getD ((jsSplit msgTypeTok body).length - 1) []) = true
  · simp only [hb, if_true] at h
    have ht := exmap_ok_inv _ _ _ _ h
    refine ⟨["Lst Response: ".data ++
        (jsSplit msgTypeTok body).getD ((jsSplit msgTypeTok body).length - 1) [],
      "Bytes in last response".data], ?_⟩
    rw [ht]
    simp [List.append_assoc]
  · simp only [Bool.not_eq_true] at hb
    simp only [hb, Bool.false_eq_true, if_false] at h
    cases hidx : idxOfSub finalRespTok body with
    | none =>
      simp only [hidx] at h
      have ht := exmap_ok_inv _ _ _ _ h
      refine ⟨["Lst Response: ".data ++
          (jsSplit msgTypeTok body).getD ((jsSplit msgTypeTok body).length - 1) [],
        "no bytes in last response".data], ?_⟩
      rw [ht]
      simp [List.append_assoc]
    | some startIdx =>
      simp only [hidx] at h
      cases hend : idxOfSub closeBraceTok (body.drop (startIdx + finalRespTok.length)) with
      | none =>
        simp only [hend] at h
        have ht := exmap_ok_inv _ _ _ _ h
        refine ⟨["Lst Response: ".data ++
            (jsSplit msgTypeTok body).getD ((jsSplit msgTypeTok body).length - 1) [],
          "no bytes in last response".data], ?_⟩
        rw [ht]
        simp [List.append_assoc]
      | some endIdx =>
        simp only [hend] at h
        cases htry : tryParseMember
            ((body.drop (startIdx + finalRespTok.length)).take (endIdx + 2)) with
        | ok fr =>
          simp only [htry] at h
          have ht := exmap_ok_inv _ _ _ _ h
          refine ⟨["Lst Response: ".data ++
              (jsSplit msgTypeTok body).getD ((jsSplit msgTypeTok body).length - 1) [],
            "no bytes in last response".data], ?_⟩
          rw [ht]
          simp [List.append_assoc]
        | error e =>
          simp only [htry] at h
          have ht := exmap_ok_inv _ _ _ _ h
          refine ⟨["Lst Response: ".data ++
              (jsSplit msgTypeTok body).getD ((jsSplit msgTypeTok body).length - 1) [],
            "no bytes in last response".data,
            "Error parsing JSON: ".data ++ e], ?_⟩
          rw [ht]
          simp [List.append_assoc]

theorem applyReplaces_ok (fr : JSValue) (a : JStr)
    (h : applyReplaces fr = .ok a) : ∃ s, a = normalizeAns s := by
  cases fr with
  | strV s =>
    simp only [applyReplaces, Except.ok.injEq] at h
    exact ⟨s, h.symm⟩
  | nullV => simp [applyReplaces] at h
  | boolV b => simp [applyReplaces] at h
  | numV r => simp [applyReplaces] at h
  | arrV xs => simp [applyReplaces] at h
  | objV fs => simp [applyReplaces] at h

theorem tailAnswer_ok_normalized (x y a : JStr)
    (h : tailAnswer x y = .ok a) : ∃ s, a = normalizeAns s := by
  unfold tailAnswer at h
  by_cases hb : hasSub bytesTok y = true
  · simp only [hb, if_true] at h
    by_cases h2 : 3 < (jsSplit quoteTok y).length
    · rw [if_pos h2] at h
      exact applyReplaces_ok _ _ h
    · rw [if_neg h2] at h
      exact applyReplaces_ok _ _ h
  · simp only [Bool.not_eq_true] at hb
    simp only [hb, Bool.false_eq_true, if_false] at h
    cases hidx : idxOfSub finalRespTok x with
    | none =>
      simp only [hidx] at h
      exact applyReplaces_ok _ _ h
    | some startIdx =>
      simp only [hidx] at h
      cases hend : idxOfSub closeBraceTok (x.drop (startIdx + finalRespTok.length)) with
      | none =>
        simp only [hend] at h
        exact applyReplaces_ok _ _ h
      | some endIdx =>
        simp only [hend] at h
        cases htry : tryParseMember
            ((x.drop (startIdx + finalRespTok.length)).take (endIdx + 2)) with
        | ok fr =>
          simp only [htry] at h
          exact applyReplaces_ok _ _ h
        | error e =>
          simp only [htry] at h
          exact applyReplaces_ok _ _ h

/-- C1 (counterexample): for the body `bytes"a"b"SGVsbG8="x:message-typeend`
the unique payload-bearing segment decodes, after normalization, to `Hello`,
and no later segment is payload-bearing, yet the decoder returns the empty
answer: the answer is taken only from the final segment (or the marker
fallback), never from the last payload-bearing segment. -/
theorem c1_cex :
    (decodeResponse exBodyLastPayload).toOption.map (fun p => p.2) = some [] ∧
    hasSub bytesTok ((jsSplit msgTypeTok exBodyLastPayload).getD 0 []) = true ∧
    hasSub bytesTok ((jsSplit msgTypeTok exBodyLastPayload).getD 1 []) = false ∧
    normalizeAns (b64ToUtf8 ((jsSplit quoteTok
      ((jsSplit msgTypeTok exBodyLastPayload).getD 0 [])).getD 3 [])) = "Hello".data ∧
    ([] : JStr) ≠ "Hello".data := by decide

/-- C1 (amended): for every raw body whose final segment is payload-bearing
and splits on `"` into more than three parts, decodeResponse returns as the
answer the base64-decoded, quote-and-noise-stripped text of that final
segment's fourth quote-part; payload-bearing segments earlier in the body
contribute only to the trace. -/
theorem c1_amended (body : JStr)
    (h1 : hasSub bytesTok (lastSeg body) = true)
    (h2 : 3 < (jsSplit quoteTok (lastSeg body)).length) :
    ∃ t, decodeResponse body =
      .ok (t, normalizeAns (b64ToUtf8 ((jsSplit quoteTok (lastSeg body)).getD 3 []))) := by
  unfold decodeResponse decodeResp
  simp only [lastSeg] at h1 h2
  simp only [h1, if_true, if_pos h2, applyReplaces, Except.map]
  exact ⟨_, rfl⟩

/-- C1 (witness): the amended theorem applied to a body whose final segment
carries base64 of `Hello` while an earlier payload-bearing segment carries
base64 of `Hi`; the answer evaluates to `Hello`. -/
theorem c1_amended_witness :
    (∃ t, decodeResponse exBodyC1Witness =
      .ok (t, normalizeAns (b64ToUtf8
        ((jsSplit quoteTok (lastSeg exBodyC1Witness)).getD 3 [])))) ∧
    normalizeAns (b64ToUtf8
      ((jsSplit quoteTok (lastSeg exBodyC1Witness)).getD 3 [])) = "Hello".data :=
  ⟨c1_amended exBodyC1Witness (by decide) (by decide), by decide⟩

/-- C2: decodeResponse is not total: on the body
`finalResponse":{"text":true,"a":"b"}` (no payload-bearing segment) the
fallback path parses the fragment, keeps the truthy non-string `text` member
`true` in `finalResponse`, and the subsequent `.replace` call throws a
TypeError that escapes the decode boundary. -/
theorem c2_bug :
    decodeResponse exBodyTypeConfusion = .error replTypeErrMsg := by
  rfl

/-- C3: for every raw body with no payload-bearing segment that contains the
`finalResponse":` marker followed by a `"}` terminator, such that the
extracted fragment parses as JSON with a non-empty string `text` member, the
decoder returns that member, normalized, as the answer. -/
theorem c3_marker_fallback (body : JStr) (i j : Nat) (v : JSValue) (s : JStr)
    (h0 : ∀ seg ∈ jsSplit msgTypeTok body, hasSub bytesTok seg = false)
    (h1 : idxOfSub finalRespTok body = some i)
    (h2 : idxOfSub closeBraceTok (body.drop (i + finalRespTok.length)) = some j)
    (h3 : jsonParse ((body.drop (i + finalRespTok.length)).take (j + 2)) = .ok v)
    (h4 : getMember v textTok = .val (.strV s))
    (h5 : s ≠ []) :
    ∃ t, decodeResponse body = .ok (t, normalizeAns s) := by
  have hlast : hasSub bytesTok (lastSeg body) = false := by
    apply h0
    exact getD_last_mem _ _ (jsSplit_ne_nil _ _)
  have htruthy : truthy (.strV s) = true := by
    cases s with
    | nil => exact absurd rfl h5
    | cons c r => simp [truthy]
  have htry : tryParseMember
      ((body.drop (i + finalRespTok.length)).take (j + 2)) = .ok (.strV s) := by
    unfold tryParseMember
    simp [h3, h4, htruthy]
  unfold decodeResponse decodeResp
  simp only [lastSeg] at hlast
  simp only [hlast, Bool.false_eq_true, if_false, h1, h2, htry,
    applyReplaces, Except.map]
  exact ⟨_, rfl⟩

/-- C3 (witness): the theorem applied to the body
`finalResponse":{"text":"Hi there"}`, whose answer is `Hi there`. -/
theorem c3_marker_fallback_witness :
    (∃ t, decodeResponse exBodyMarker =
      .ok (t, normalizeAns ("Hi there".data))) ∧
    normalizeAns ("Hi there".data) = "Hi there".data :=
  ⟨c3_marker_fallback exBodyMarker 0 17
      (.objV [(("text".data), .strV ("Hi there".data))]) ("Hi there".data)
      (by decide) (by rfl) (by rfl) (by rfl) (by rfl) (by decide),
    by decide⟩

/-- C4 (counterexample): the body
`bytes"a"b"!!!"x:message-typebytes"a"b"SGk="x:message-typeend` has a
payload-bearing segment with malformed base64 (`!!!`) and a payload-bearing
segment whose base64 decodes to `Hi`, yet the trace records no error line
(Node's forgiving decoder cannot fail, so the catch arm never runs) and the
answer ignores the remaining valid payload-bearing segment: it is empty, not
`Hi`. -/
theorem c4_cex :
    (decodeResp exBodyMalformedB64).toOption.map
      (fun p => (p.2, p.1.any (fun l => hasSub ("Error".data) l))) =
        some ([], false) ∧
    b64ToUtf8 ("SGk=".data) = "Hi".data ∧
    ([] : JStr) ≠ "Hi".data := by decide

/-- C4 (amended): per-segment decoding never fails and never aborts: the
base64 decoder is total, so a payload-bearing segment contributes at most one
trace line and no exception, and the decoder's answer (or its escaping
TypeError) is a function of the raw body and its final segment only, never of
the other payload-bearing segments. -/
theorem c4_amended (body : JStr) :
    (decodeResp body).map (fun p : List JStr × JStr => p.2) =
      tailAnswer body (lastSeg body) ∧
    ∀ idx seg, hasSub bytesTok seg = true → (segTrace idx seg).length ≤ 1 := by
  refine ⟨decodeResp_answer_eq_tail body, ?_⟩
  intro idx seg hseg
  simp only [segTrace, hseg, if_true]
  split <;> simp

/-- C4 (witness): the amended theorem applied to the malformed-base64 body
and its first payload-bearing segment. -/
theorem c4_amended_witness :
    (decodeResp exBodyMalformedB64).map (fun p : List JStr × JStr => p.2) =
      tailAnswer exBodyMalformedB64 (lastSeg exBodyMalformedB64) ∧
    (segTrace 0 ("bytes\"a\"b\"!!!\"x".data)).length ≤ 1 :=
  ⟨(c4_amended exBodyMalformedB64).1,
    (c4_amended exBodyMalformedB64).2 0 ("bytes\"a\"b\"!!!\"x".data) (by decide)⟩

/-- C5 (counterexample): normalization is not idempotent: on
`{inp{input:{value:ut:{value:` one pass deletes the embedded noise pattern
and thereby splices together a new occurrence (the replacement pass does not
rescan its own output), which only a second pass deletes. -/
theorem c5_cex :
    normalizeAns (normalizeAns exNormSplice) ≠ normalizeAns exNormSplice ∧
    normalizeAns exNormSplice = noiseTok1 ∧
    normalizeAns (normalizeAns exNormSplice) = [] := by decide

/-- C5 (amended): normalization is idempotent on every input whose one-pass
output contains no occurrence of either noise pattern (quote stripping never
needs a second pass, since one pass removes every quote and the noise
removals cannot reintroduce one); in general a pass can splice a new noise
occurrence and idempotence fails. -/
theorem c5_amended (s : JStr)
    (h1 : hasSub noiseTok1 (normalizeAns s) = false)
    (h2 : hasSub noiseTok2 (normalizeAns s) = false) :
    normalizeAns (normalizeAns s) = normalizeAns s := by
  have hq : hasSub quoteTok (normalizeAns s) = false :=
    hasSub_singleton_false '"' (normalizeAns s) (quote_not_mem_normalizeAns s)
  conv_lhs => rw [normalizeAns]
  rw [jsReplaceAll_not_occurs _ _ _ hq, jsReplaceAll_not_occurs _ _ _ h1,
    jsReplaceAll_not_occurs _ _ _ h2]

/-- C5 (witness): the amended theorem applied to `a"bc`, whose normalization
`abc` is a fixed point. -/
theorem c5_amended_witness :
    normalizeAns (normalizeAns ("a\"bc".data)) = normalizeAns ("a\"bc".data) :=
  c5_amended ("a\"bc".data) (by decide) (by decide)

/-- C6: the outbound request carries endSession = true exactly when the
event's endSession field is the boolean `true` or the string `"true"`; every
other value (including `"false"` or absence) yields false. -/
theorem c6_end_session (ev : LambdaEvent) :
    (lambdaRequestOf ev).endSession = true ↔
      ev.endSession = .boolE true ∨ ev.endSession = .strE ("true".data) := by
  constructor
  · intro h
    by_contra hcon
    simp [lambdaRequestOf, endSessionOf, hcon] at h
  · intro h
    simp [lambdaRequestOf, endSessionOf, h]

/-- C7 (counterexample): on the literal example body
`x:message-type...bytes..."SGVsbG8="...` the answer does not contain `Hello`;
it is empty, because the base64 sits in the segment's second quoted field
while the decoder reads the fourth quote-split part and requires more than
three parts. -/
theorem c7_cex :
    (decodeResponse exBodyC7Literal).toOption.map
      (fun p => hasSub ("Hello".data) p.2) = some false ∧
    (decodeResponse exBodyC7Literal).toOption.map (fun p => p.2) = some [] := by
  decide

/-- C7 (amended): for the body `x:message-type...bytes..."k""SGVsbG8="...`,
whose final segment's fourth quote-split part is the base64 of `Hello`, the
decoder's answer contains `Hello`. -/
theorem c7_amended :
    (decodeResponse exBodyC7Fourth).toOption.map
      (fun p => hasSub ("Hello".data) p.2) = some true := by decide

/-- C8: lambdaHandler returns status 500 with a JSON body carrying the error
message exactly on an exception from the issuer or the decoder, and status
200 with a JSON body holding the trace and the answer on success. -/
theorem c8_envelope (ev : LambdaEvent) (transport : Except JStr JStr) :
    (∀ e, askQuestion transport = .error e →
      lambdaHandler ev transport = ⟨500, stringifyErrBody e⟩) ∧
    (∀ t a, askQuestion transport = .ok (t, a) →
      lambdaHandler ev transport = ⟨200, stringifyOkBody t a⟩) ∧
    ((lambdaHandler ev transport).statusCode = 200 ↔
      ∃ p, askQuestion transport = .ok p) := by
  refine ⟨?_, ?_, ?_⟩
  · intro e he
    simp [lambdaHandler, he]
  · intro t a hok
    simp [lambdaHandler, hok]
  · cases hq : askQuestion transport with
    | ok p => simp [lambdaHandler, hq]
    | error e => simp [lambdaHandler, hq]

/-- C8 (witness): the theorem applied to a transport error `boom`, which the
handler wraps into a 500 envelope. -/
theorem c8_envelope_witness :
    lambdaHandler ⟨("s".data), ("q".data), .absent⟩ (.error ("boom".data)) =
      ⟨500, stringifyErrBody ("boom".data)⟩ :=
  (c8_envelope ⟨("s".data), ("q".data), .absent⟩ (.error ("boom".data))).1
    ("boom".data) rfl

/-- C9 (counterexample): a five-segment body yields a five-line trace while a
two-segment body yields a nine-line trace, so trace length is not monotone in
the number of segments. -/
theorem c9_cex :
    (jsSplit msgTypeTok exBodyFiveSegs).length = 5 ∧
    (jsSplit msgTypeTok exBodyTwoSegs).length = 2 ∧
    (decodeResp exBodyFiveSegs).toOption.map (fun p => p.1.length) = some 5 ∧
    (decodeResp exBodyTwoSegs).toOption.map (fun p => p.1.length) = some 9 := by
  decide

/-- C9 (amended): whenever the decoder returns normally, its trace begins
with the three fixed header lines followed by each segment's diagnostic lines
in split order, followed by the tail lines; trace length is however not
monotone in segment count, because a payload-bearing segment with at most
three quote-parts contributes no line. -/
theorem c9_amended (body : JStr) (t : List JStr) (a : JStr)
    (h : decodeResp body = .ok (t, a)) :
    ∃ tl, t = headTrace body ++
      (List.map (fun p : Nat × JStr => segTrace p.1 p.2)
        (List.enumFrom 0 (jsSplit msgTypeTok body))).flatten ++ tl :=
  decodeResp_trace_shape body t a h

/-- C9 (witness): the amended theorem applied to the two-segment body with
its full nine-line trace. -/
theorem c9_amended_witness :
    ∃ tl, ["Decoded response: a:message-typeb".data,
      "Split Response: [\"a\",\"b\"]".data,
      "length of split: 2".data,
      "no bytes at index 0".data, "a".data,
      "no bytes at index 1".data, "b".data,
      "Lst Response: b".data,
      "no bytes in last response".data] = headTrace exBodyTwoSegs ++
      (List.map (fun p : Nat × JStr => segTrace p.1 p.2)
        (List.enumFrom 0 (jsSplit msgTypeTok exBodyTwoSegs))).flatten ++ tl :=
  c9_amended exBodyTwoSegs
    ["Decoded response: a:message-typeb".data,
      "Split Response: [\"a\",\"b\"]".data,
      "length of split: 2".data,
      "no bytes at index 0".data, "a".data,
      "no bytes at index 1".data, "b".data,
      "Lst Response: b".data,
      "no bytes in last response".data] [] (by decide)

/-- C10: whenever decodeResponse returns normally, the answer contains no
double-quote character: the global quote-stripping pass removes every quote
and the two noise-pattern removals, having empty replacement text, cannot
reintroduce one. -/
theorem c10_no_quotes (body : JStr) (t a : JStr)
    (h : decodeResponse body = .ok (t, a)) : '"' ∉ a := by
  have hmap : (decodeResp body).map (fun p : List JStr × JStr => p.2) = .ok a := by
    unfold decodeResponse at h
    cases hd : decodeResp body with
    | ok p =>
      rw [hd] at h
      simp only [Except.map, Except.ok.injEq, Prod.mk.injEq] at h
      simp only [Except.map, Except.ok.injEq]
      exact h.2
    | error e =>
      rw [hd] at h
      simp [Except.map] at h
  rw [decodeResp_answer_eq_tail] at hmap
  obtain ⟨s, hs⟩ := tailAnswer_ok_normalized _ _ _ hmap
  rw [hs]
  exact quote_not_mem_normalizeAns s

/-- C10 (witness): the theorem applied to the two-segment body, whose answer
is the (quote-free) empty string. -/
theorem c10_no_quotes_witness :
    decodeResponse exBodyTwoSegs =
      .ok (("Decoded response: a:message-typeb\nSplit Response: [\"a\",\"b\"]\nlength of split: 2\nno bytes at index 0\na\nno bytes at index 1\nb\nLst Response: b\nno bytes in last response".data), []) ∧
    '"' ∉ ([] : JStr) :=
  ⟨by decide,
    c10_no_quotes exBodyTwoSegs
      ("Decoded response: a:message-typeb\nSplit Response: [\"a\",\"b\"]\nlength of split: 2\nno bytes at index 0\na\nno bytes at index 1\nb\nLst Response: b\nno bytes in last response".data)
      [] (by decide)⟩

end BedrockDecode
